import Mathlib

/-!
Verification of the stock-ledger core of the mahadev-trader-suite repository.

The central operation is the SQL function `public.decrement_stock`
(supabase/migrations/20251115025811_….sql): a single conditional UPDATE on
the `stock_items` table

    UPDATE stock_items
    SET quantity = quantity - _quantity
    WHERE id = _stock_item_id
      AND user_id = auth.uid()
      AND quantity >= _quantity
    RETURNING quantity INTO _new_quantity;

followed by `RAISE EXCEPTION 'Insufficient stock or item not found'` when no
row was affected (`_new_quantity IS NULL`), and `RETURN _new_quantity`
otherwise.

We embed the `stock_items` table as a list of rows (the columns not touched
by the operation — name, price, unit_type, timestamps — are elided), the
UPDATE as a structural traversal applying the SET clause to every row
satisfying the WHERE clause, and the plpgsql control flow around it as a
`Except`-valued function.  `auth.uid()` is passed in as the `uid` argument.
`numeric` quantities are embedded as `Rat`.
-/

/-- A row of the `stock_items` table (columns relevant to `decrement_stock`):
`id UUID PRIMARY KEY`, `user_id UUID`, `quantity DECIMAL(10,2)`. -/
structure StockItem where
  id : String
  user_id : String
  quantity : Rat
deriving Repr, DecidableEq

/-- The WHERE clause of the UPDATE inside `decrement_stock`:
`id = _stock_item_id AND user_id = auth.uid() AND quantity >= _quantity`. -/
def rowMatches (sid uid : String) (q : Rat) (it : StockItem) : Bool :=
  it.id == sid && it.user_id == uid && decide (it.quantity ≥ q)

/-- The UPDATE statement of `decrement_stock`: applies
`SET quantity = quantity - _quantity` to every row satisfying `rowMatches`,
returning the new table together with the `RETURNING quantity` value
(`none` when zero rows were affected; the first affected row's new quantity
otherwise — `id` is the primary key, so at most one row ever matches). -/
def updateStock (sid : String) (q : Rat) (uid : String) :
    List StockItem → List StockItem × Option Rat
  | [] => ([], none)
  | it :: rest =>
    let r := updateStock sid q uid rest
    if rowMatches sid uid q it then
      ({ it with quantity := it.quantity - q } :: r.1, some (it.quantity - q))
    else
      (it :: r.1, r.2)

/-- The single error kind of `decrement_stock`:
`RAISE EXCEPTION 'Insufficient stock or item not found'`
(the spec's `InsufficientStockError`). -/
inductive DecrementError where
  | insufficientStock
deriving Repr, DecidableEq

deriving instance DecidableEq for Except

/-- The plpgsql function `public.decrement_stock(_stock_item_id, _quantity)`:
run the conditional UPDATE; if `_new_quantity IS NULL` (no row affected)
raise the single exception, otherwise return the new quantity.  The result
pairs the call's outcome with the table state after the statement. -/
def decrement_stock (table : List StockItem) (sid : String) (q : Rat)
    (uid : String) : Except DecrementError Rat × List StockItem :=
  match updateStock sid q uid table with
  | (table1, some newq) => (Except.ok newq, table1)
  | (table1, none) => (Except.error DecrementError.insufficientStock, table1)

/-- A sequence of serialized `decrement_stock` calls against one table; each
triple is `(_stock_item_id, _quantity, auth.uid())`.  The storage layer
serializes conflicting conditional updates to the same row, so any set of
concurrent calls is observed as some such sequence. -/
def runCalls (table : List StockItem) : List (String × Rat × String) → List StockItem
  | [] => table
  | (sid, q, uid) :: rest => runCalls (decrement_stock table sid q uid).2 rest

/-- All quantities in the table are non-negative (the spec's ledger invariant
`quantityOnHand >= 0`). -/
def allNonneg (table : List StockItem) : Prop :=
  ∀ it ∈ table, 0 ≤ it.quantity

instance (table : List StockItem) : Decidable (allNonneg table) :=
  List.decidableBAll _ table

/-- The table obtained from `table` by applying the SET clause
`quantity = quantity - q` to every row whose `id` equals `sid` (used to state
what a successful `decrement_stock` call does to the table). -/
def decrementedTable (sid : String) (q : Rat) (table : List StockItem) :
    List StockItem :=
  table.map fun it =>
    if it.id == sid then { it with quantity := it.quantity - q } else it

/-!
Embedding of the invoice-saving workflow `handleSaveInvoice`
(src/pages/CreateInvoice.tsx).  The workflow inserts the `invoices` row,
then loops over the line items, inserting each `invoice_items` row and then
calling the `decrement_stock` RPC; any error throws, which aborts the loop
(the catch block only shows an error toast).  Customer creation and the
presentation columns (names, prices, totals, payment type) do not interact
with the stock ledger and are elided; inserts are modelled as succeeding
(the spec's `TransientStorageError` is out of scope here).
-/

/-- A row of the `invoices` table (identity columns; customer and payment
presentation columns are elided). -/
structure Invoice where
  id : String
  user_id : String
deriving Repr, DecidableEq

/-- A row of the `invoice_items` table (columns relevant to the stock
workflow; item name, price, unit type and subtotal are elided). -/
structure InvoiceItem where
  invoice_id : String
  stock_item_id : String
  quantity : Rat
deriving Repr, DecidableEq

/-- One entry of the `invoiceItems` React state in CreateInvoice.tsx (the
stock reference and requested quantity; presentation fields elided). -/
structure LineItem where
  stock_item_id : String
  quantity : Rat
deriving Repr, DecidableEq

/-- The persisted database state touched by `handleSaveInvoice`. -/
structure DB where
  invoices : List Invoice
  invoice_items : List InvoiceItem
  stock_items : List StockItem
deriving Repr, DecidableEq

/-- The per-line-item loop of `handleSaveInvoice`: for each item, insert the
`invoice_items` row, then call the `decrement_stock` RPC.  A `stockError`
throws, which leaves the loop; the catch block does not undo any insert or
decrement already applied.  The boolean is `true` when the loop completed
(success toast, navigation to /invoices — the invoice is reported saved)
and `false` when it was aborted by an error. -/
def processItems (uid invId : String) : DB → List LineItem → DB × Bool
  | db, [] => (db, true)
  | db, item :: rest =>
    let db1 : DB :=
      { db with invoice_items :=
          db.invoice_items ++ [⟨invId, item.stock_item_id, item.quantity⟩] }
    match decrement_stock db1.stock_items item.stock_item_id item.quantity uid with
    | (Except.ok _, stock1) =>
        processItems uid invId { db1 with stock_items := stock1 } rest
    | (Except.error _, stock1) => ({ db1 with stock_items := stock1 }, false)

/-- `handleSaveInvoice` (CreateInvoice.tsx): insert the `invoices` row
first, then run the per-line-item loop. -/
def handleSaveInvoice (uid : String) (inv : Invoice) (items : List LineItem)
    (db : DB) : DB × Bool :=
  let db1 : DB := { db with invoices := db.invoices ++ [inv] }
  processItems uid inv.id db1 items

/-!
Embedding of the stock-refill dialog (src/components/StockRefillDialog.tsx).
`fetchStockItems` loads a client-side snapshot of `stock_items` when the
dialog opens; `handleRefill` then writes, for each valid selected item, the
absolute value `s.item.quantity + parseFloat(s.refillQuantity)` computed
from that snapshot, via `UPDATE stock_items SET quantity = … WHERE id = …`
(no conditional re-read of the stored quantity).
-/

/-- A stock item as fetched by `fetchStockItems` into the dialog's state
(the snapshot; the columns of its `select`). -/
structure ClientStockItem where
  id : String
  name : String
  quantity : Rat
  unit_type : String
  price : Rat
deriving Repr, DecidableEq

/-- One entry of the `selectedItems` state: a snapshot item plus the parse
of the quantity text field (`parseFloat`; `none` models `NaN`). -/
structure SelectedItem where
  item : ClientStockItem
  refillQuantity : Option Rat
deriving Repr, DecidableEq

/-- The `validItems` predicate of StockRefillDialog.tsx:
`!isNaN(qty) && qty > 0`. -/
def isValidItem (s : SelectedItem) : Bool :=
  match s.refillQuantity with
  | some qty => decide (0 < qty)
  | none => false

/-- `validItems` (StockRefillDialog.tsx): the selected items whose refill
quantity parses to a positive number. -/
def validItems (selected : List SelectedItem) : List SelectedItem :=
  selected.filter isValidItem

/-- One UPDATE issued by `handleRefill`:
`update({ quantity: newQty }).eq("id", itemId)` — an unconditional absolute
write of `newQty` to every row whose `id` matches. -/
def applyRefillUpdate (table : List StockItem) (itemId : String)
    (newQty : Rat) : List StockItem :=
  table.map fun it =>
    if it.id == itemId then { it with quantity := newQty } else it

/-- `handleRefill` (StockRefillDialog.tsx): for each valid selected item,
write the absolute quantity `s.item.quantity + qty`, where `s.item.quantity`
is the snapshot value captured by `fetchStockItems`, not the currently
stored one. -/
def handleRefill (table : List StockItem) (selected : List SelectedItem) :
    List StockItem :=
  (validItems selected).foldl
    (fun t s =>
      match s.refillQuantity with
      | some qty => applyRefillUpdate t s.item.id (s.item.quantity + qty)
      | none => t)
    table

/-- The stored quantity of the row with the given `id` (`none` when no such
row exists). -/
def getQuantity (table : List StockItem) (itemId : String) : Option Rat :=
  (table.find? fun it => it.id == itemId).map StockItem.quantity

example :
    decrement_stock [⟨"A", "U1", 10⟩] "A" 7 "U1"
      = (Except.ok 3, [⟨"A", "U1", 3⟩]) := by
  norm_num [decrement_stock, updateStock, rowMatches]

example :
    decrement_stock [⟨"A", "U1", 5⟩] "A" 7 "U1"
      = (Except.error DecrementError.insufficientStock, [⟨"A", "U1", 5⟩]) := by
  norm_num [decrement_stock, updateStock, rowMatches]

section UpdateStockLemmas

variable (sid uid : String) (q : Rat)

/-- Rows not satisfying the WHERE clause pass through the UPDATE untouched:
if no row of the table matches, the table is unchanged and zero rows are
returned. -/
theorem updateStock_of_no_match {table : List StockItem}
    (h : ∀ it ∈ table, rowMatches sid uid q it = false) :
    updateStock sid q uid table = (table, none) := by
  induction table with
  | nil => rfl
  | cons it rest ih =>
    have hit := h it (List.mem_cons_self it rest)
    have hrest := ih fun x hx => h x (List.mem_cons_of_mem it hx)
    simp [updateStock, hit, hrest]

/-- Zero affected rows (`RETURNING` into `NULL`) happens exactly when no row
of the table satisfies the WHERE clause. -/
theorem updateStock_snd_eq_none_iff (table : List StockItem) :
    (updateStock sid q uid table).2 = none
      ↔ ∀ it ∈ table, rowMatches sid uid q it = false := by
  induction table with
  | nil => simp [updateStock]
  | cons it rest ih =>
    by_cases hit : rowMatches sid uid q it
    · simp [updateStock, hit]
    · simp only [updateStock, hit]
      simp [ih, hit]

/-- When the UPDATE affects zero rows, the table it leaves behind is the
table it started from. -/
theorem updateStock_snd_none_fst_eq (table : List StockItem)
    (h : (updateStock sid q uid table).2 = none) :
    (updateStock sid q uid table).1 = table := by
  have h2 := (updateStock_snd_eq_none_iff sid uid q table).1 h
  rw [updateStock_of_no_match sid uid q h2]

/-- Every quantity in the table after the UPDATE is non-negative provided
every quantity before it was: an affected row satisfied
`quantity >= _quantity` at the moment of the update, so its new quantity
`quantity - _quantity` is `>= 0`; unaffected rows keep their old quantity. -/
theorem updateStock_preserves_nonneg {table : List StockItem}
    (h : allNonneg table) :
    allNonneg (updateStock sid q uid table).1 := by
  induction table with
  | nil => simpa [updateStock] using h
  | cons it rest ih =>
    have hit : 0 ≤ it.quantity := h it (List.mem_cons_self it rest)
    have hrest : allNonneg rest := fun x hx => h x (List.mem_cons_of_mem it hx)
    by_cases hm : rowMatches sid uid q it
    · have hq : q ≤ it.quantity := by
        have := hm
        unfold rowMatches at this
        simp only [Bool.and_eq_true, decide_eq_true_eq] at this
        exact this.2
      intro x hx
      simp only [updateStock, hm, if_pos] at hx
      rcases List.mem_cons.1 hx with hx | hx
      · subst hx
        simpa using sub_nonneg.2 hq
      · exact ih hrest x hx
    · intro x hx
      simp only [updateStock, hm, if_neg] at hx
      rcases List.mem_cons.1 hx with hx | hx
      · subst hx; exact hit
      · exact ih hrest x hx

end UpdateStockLemmas

/-- The WHERE clause, spelled as a proposition. -/
theorem rowMatches_eq_true_iff (sid uid : String) (q : Rat) (it : StockItem) :
    rowMatches sid uid q it = true
      ↔ it.id = sid ∧ it.user_id = uid ∧ it.quantity ≥ q := by
  simp [rowMatches, and_assoc]

/-- Negation of the WHERE clause, spelled as a proposition. -/
theorem rowMatches_eq_false_iff (sid uid : String) (q : Rat) (it : StockItem) :
    rowMatches sid uid q it = false
      ↔ ¬(it.id = sid ∧ it.user_id = uid ∧ it.quantity ≥ q) := by
  rw [← rowMatches_eq_true_iff sid uid q it]
  exact ⟨fun h => by simp [h], fun h => by simpa using h⟩

/-- A row whose `id` differs from `_stock_item_id` never matches. -/
theorem rowMatches_eq_false_of_id_ne (sid uid : String) (q : Rat)
    {it : StockItem} (h : it.id ≠ sid) :
    rowMatches sid uid q it = false := by
  rw [rowMatches_eq_false_iff]
  exact fun hc => h hc.1

/-- Unfolding of the SET clause on a cons cell. -/
theorem decrementedTable_cons (sid : String) (q : Rat) (it : StockItem)
    (rest : List StockItem) :
    decrementedTable sid q (it :: rest)
      = (if it.id = sid then { it with quantity := it.quantity - q } else it)
          :: decrementedTable sid q rest := by
  by_cases h : it.id = sid <;> simp [decrementedTable, h]

/-- Applying the SET clause to rows of other ids changes nothing. -/
theorem decrementedTable_of_no_id (sid : String) (q : Rat)
    {table : List StockItem} (h : ∀ x ∈ table, x.id ≠ sid) :
    decrementedTable sid q table = table := by
  induction table with
  | nil => rfl
  | cons it rest ih =>
    have h1 : it.id ≠ sid := h it (List.mem_cons_self it rest)
    have h2 := ih fun x hx => h x (List.mem_cons_of_mem it hx)
    rw [decrementedTable_cons, if_neg h1, h2]

/-- In a table whose `id` column is duplicate-free (the PRIMARY KEY
constraint on `stock_items.id`), rows are determined by their ids. -/
theorem eq_of_mem_of_id_eq {table : List StockItem}
    (hnd : (table.map StockItem.id).Nodup) {x y : StockItem}
    (hx : x ∈ table) (hy : y ∈ table) (h : x.id = y.id) : x = y :=
  List.inj_on_of_nodup_map hnd hx hy h

/-- Success case of the conditional UPDATE: when the `id` column is
duplicate-free and the table holds a row with the requested id, the right
owner, and `quantity >= _quantity`, the UPDATE affects exactly that row,
applies the SET clause to it, and returns its new quantity. -/
theorem updateStock_success (sid uid : String) (q : Rat)
    {table : List StockItem} {entry : StockItem}
    (hnd : (table.map StockItem.id).Nodup)
    (hmem : entry ∈ table) (hid : entry.id = sid)
    (huid : entry.user_id = uid) (hq : q ≤ entry.quantity) :
    updateStock sid q uid table
      = (decrementedTable sid q table, some (entry.quantity - q)) := by
  induction table with
  | nil => cases hmem
  | cons it rest ih =>
    have hnd1 : (rest.map StockItem.id).Nodup := (List.nodup_cons.1 hnd).2
    have hhead : it.id ∉ rest.map StockItem.id := (List.nodup_cons.1 hnd).1
    rcases List.mem_cons.1 hmem with rfl | hmem1
    · have hm : rowMatches sid uid q entry = true :=
        (rowMatches_eq_true_iff sid uid q entry).2 ⟨hid, huid, hq⟩
      have hrestid : ∀ x ∈ rest, x.id ≠ sid := by
        intro x hx he
        exact hhead (by rw [hid, ← he]; exact List.mem_map_of_mem StockItem.id hx)
      have hrest : ∀ x ∈ rest, rowMatches sid uid q x = false := fun x hx =>
        rowMatches_eq_false_of_id_ne sid uid q (hrestid x hx)
      have hu := updateStock_of_no_match sid uid q hrest
      have hd := decrementedTable_of_no_id sid q hrestid
      rw [decrementedTable_cons, if_pos hid, hd]
      simp [updateStock, hm, hu]
    · have hitid : it.id ≠ sid := by
        intro he
        apply hhead
        rw [he, ← hid]
        exact List.mem_map_of_mem StockItem.id hmem1
      have hm : rowMatches sid uid q it = false :=
        rowMatches_eq_false_of_id_ne sid uid q hitid
      have hu := ih hnd1 hmem1
      rw [decrementedTable_cons, if_neg hitid]
      simp [updateStock, hm, hu]

/-- The table state a `decrement_stock` call leaves behind is the table the
conditional UPDATE produced, on the success path and the error path alike. -/
theorem decrement_stock_snd (table : List StockItem) (sid : String) (q : Rat)
    (uid : String) :
    (decrement_stock table sid q uid).2 = (updateStock sid q uid table).1 := by
  unfold decrement_stock
  cases hu : updateStock sid q uid table with
  | mk t r => cases r <;> simp

/-- `decrement_stock` raises its exception exactly when the UPDATE affected
zero rows (`_new_quantity IS NULL`). -/
theorem decrement_stock_fst_error_iff (table : List StockItem) (sid : String)
    (q : Rat) (uid : String) (e : DecrementError) :
    (decrement_stock table sid q uid).1 = Except.error e
      ↔ (updateStock sid q uid table).2 = none := by
  unfold decrement_stock
  cases hu : updateStock sid q uid table with
  | mk t r => cases r <;> simp

/-- Error case of `decrement_stock`: when no row satisfies the WHERE clause,
the call raises the single exception and the table is unchanged. -/
theorem decrement_stock_error_char (table : List StockItem) (sid : String)
    (q : Rat) (uid : String)
    (h : ∀ it ∈ table, rowMatches sid uid q it = false) :
    decrement_stock table sid q uid
      = (Except.error DecrementError.insufficientStock, table) := by
  have h1 := updateStock_of_no_match sid uid q h
  simp [decrement_stock, h1]

/-- Success case of `decrement_stock`, stated against the row the call is
about. -/
theorem decrement_stock_ok_char (table : List StockItem) (sid uid : String)
    (q : Rat) {entry : StockItem}
    (hnd : (table.map StockItem.id).Nodup)
    (hmem : entry ∈ table) (hid : entry.id = sid)
    (huid : entry.user_id = uid) (hq : q ≤ entry.quantity) :
    decrement_stock table sid q uid
      = (Except.ok (entry.quantity - q), decrementedTable sid q table) := by
  have h1 := updateStock_success sid uid q hnd hmem hid huid hq
  simp [decrement_stock, h1]

/-- Claim C1: under any sequence of serialized `decrement_stock` calls (the
storage layer serializes the atomic conditional updates, so any concurrent
schedule is observed as such a sequence), a table whose quantities are all
non-negative keeps all quantities non-negative after every call: an affected
row satisfied `quantity >= _quantity` in the same atomic step as the
subtraction, so its committed quantity is never negative. -/
theorem decrement_stock_nonneg_invariant (table : List StockItem)
    (calls : List (String × Rat × String)) (h : allNonneg table) :
    allNonneg (runCalls table calls) := by
  induction calls generalizing table with
  | nil => simpa [runCalls] using h
  | cons c rest ih =>
    obtain ⟨sid, q, uid⟩ := c
    have h1 : allNonneg (decrement_stock table sid q uid).2 := by
      rw [decrement_stock_snd]
      exact updateStock_preserves_nonneg sid uid q h
    simpa [runCalls] using ih _ h1

theorem decrement_stock_nonneg_invariant_witness :
    allNonneg [(⟨"A", "U1", 10⟩ : StockItem)]
      ∧ allNonneg (runCalls [⟨"A", "U1", 10⟩] [("A", 7, "U1"), ("A", 7, "U1")]) :=
  ⟨by decide, decrement_stock_nonneg_invariant _ _ (by decide)⟩

/-- Claim C2: an entry with quantity 10 and two calls each requesting 7.
The conditional update is atomic, so the two concurrent calls are observed
as one of the two serialization orders; the calls are identical, so both
orders are this one sequence.  The first serialized call succeeds returning
3, the second fails with the insufficient-stock error, and the final
quantity is 3 — exactly one success and exactly one failure. -/
theorem decrement_stock_concurrent_pair :
    (decrement_stock [⟨"A", "U1", 10⟩] "A" 7 "U1").1 = Except.ok 3
    ∧ (decrement_stock (decrement_stock [⟨"A", "U1", 10⟩] "A" 7 "U1").2
          "A" 7 "U1").1 = Except.error DecrementError.insufficientStock
    ∧ (decrement_stock (decrement_stock [⟨"A", "U1", 10⟩] "A" 7 "U1").2
          "A" 7 "U1").2 = [⟨"A", "U1", 3⟩] := by
  norm_num [decrement_stock, updateStock, rowMatches]

/-- Claim C3: when the table's `id` column is duplicate-free (the PRIMARY
KEY constraint) and holds a row with the requested id, the calling owner,
and `quantity >= _quantity`, the call succeeds, returns the post-decrement
quantity `entry.quantity - q`, and the table is exactly the original one
with the SET clause applied to the rows of that id. -/
theorem decrement_stock_success_spec (table : List StockItem)
    (sid uid : String) (q : Rat) (entry : StockItem)
    (hnd : (table.map StockItem.id).Nodup)
    (hmem : entry ∈ table) (hid : entry.id = sid)
    (huid : entry.user_id = uid) (hq : q ≤ entry.quantity) :
    decrement_stock table sid q uid
      = (Except.ok (entry.quantity - q), decrementedTable sid q table) :=
  decrement_stock_ok_char table sid uid q hnd hmem hid huid hq

theorem decrement_stock_success_spec_witness :
    decrement_stock [⟨"A", "U1", 10⟩, ⟨"B", "U1", 4⟩] "A" 7 "U1"
      = (Except.ok 3, [⟨"A", "U1", 3⟩, ⟨"B", "U1", 4⟩]) := by
  have h := decrement_stock_success_spec [⟨"A", "U1", 10⟩, ⟨"B", "U1", 4⟩]
    "A" "U1" 7 ⟨"A", "U1", 10⟩ (by decide) (by decide) rfl rfl (by decide)
  norm_num [decrementedTable] at h
  exact h

/-- Claim C4: the call fails exactly when no row satisfies the conditional
predicate at the moment of the attempt — the row with the requested id is
missing, or its owner differs from the caller, or its quantity is below the
request — and every failure carries the one error kind
`DecrementError.insufficientStock` (the function's single
`RAISE EXCEPTION`), which does not distinguish the three causes. -/
theorem decrement_stock_failure_iff (table : List StockItem) (sid : String)
    (q : Rat) (uid : String) :
    ((decrement_stock table sid q uid).1
        = Except.error DecrementError.insufficientStock
      ↔ ∀ it ∈ table, ¬(it.id = sid ∧ it.user_id = uid ∧ it.quantity ≥ q))
    ∧ ∀ e, (decrement_stock table sid q uid).1 = Except.error e
        → e = DecrementError.insufficientStock := by
  constructor
  · rw [decrement_stock_fst_error_iff table sid q uid
      DecrementError.insufficientStock, updateStock_snd_eq_none_iff]
    exact ⟨fun h it hm => (rowMatches_eq_false_iff sid uid q it).1 (h it hm),
      fun h it hm => (rowMatches_eq_false_iff sid uid q it).2 (h it hm)⟩
  · intro e _
    cases e
    rfl

theorem decrement_stock_failure_iff_witness :
    (decrement_stock [⟨"A", "U1", 5⟩] "A" 7 "U1").1
      = Except.error DecrementError.insufficientStock :=
  (decrement_stock_failure_iff [⟨"A", "U1", 5⟩] "A" 7 "U1").1.2 (by decide)

/-- Claim C5: a failed call mutates nothing — whenever `decrement_stock`
raises its error, the table after the call equals the table before it
(zero rows were affected by the conditional UPDATE). -/
theorem decrement_stock_failure_no_mutation (table : List StockItem)
    (sid : String) (q : Rat) (uid : String) (e : DecrementError)
    (h : (decrement_stock table sid q uid).1 = Except.error e) :
    (decrement_stock table sid q uid).2 = table := by
  have h1 : (updateStock sid q uid table).2 = none :=
    (decrement_stock_fst_error_iff table sid q uid e).1 h
  rw [decrement_stock_snd]
  exact updateStock_snd_none_fst_eq sid uid q table h1

theorem decrement_stock_failure_no_mutation_witness :
    (decrement_stock [⟨"A", "U1", 5⟩] "A" 7 "U1").2 = [⟨"A", "U1", 5⟩] :=
  decrement_stock_failure_no_mutation [⟨"A", "U1", 5⟩] "A" 7 "U1"
    DecrementError.insufficientStock (by decide)

/-- Claim C6: a call whose `auth.uid()` differs from the owner of the row
with the requested id fails with the single insufficient-stock error and
mutates nothing, whatever the row's quantity is — `user_id = auth.uid()` is
part of the same conditional predicate. -/
theorem decrement_stock_owner_mismatch (table : List StockItem)
    (sid uid : String) (q : Rat) (entry : StockItem)
    (hnd : (table.map StockItem.id).Nodup)
    (hmem : entry ∈ table) (hid : entry.id = sid)
    (huid : entry.user_id ≠ uid) :
    decrement_stock table sid q uid
      = (Except.error DecrementError.insufficientStock, table) := by
  apply decrement_stock_error_char
  intro x hx
  by_cases hxid : x.id = sid
  · have hxe : x = entry := eq_of_mem_of_id_eq hnd hx hmem (hxid.trans hid.symm)
    subst hxe
    rw [rowMatches_eq_false_iff]
    exact fun hc => huid hc.2.1
  · exact rowMatches_eq_false_of_id_ne sid uid q hxid

theorem decrement_stock_owner_mismatch_witness :
    decrement_stock [⟨"A", "U1", 100⟩] "A" 7 "U2"
      = (Except.error DecrementError.insufficientStock, [⟨"A", "U1", 100⟩]) :=
  decrement_stock_owner_mismatch [⟨"A", "U1", 100⟩] "A" "U2" 7 ⟨"A", "U1", 100⟩
    (by decide) (by decide) rfl (by decide)

/-- Claim C7: boundary behaviour.  Requesting exactly the quantity on hand
succeeds and returns 0 (leaving the row's quantity at
`entry.quantity - entry.quantity = 0`); requesting any strictly larger
quantity — `0.01` more included, quantities being `numeric` — fails with the
insufficient-stock error and mutates nothing. -/
theorem decrement_stock_boundary (table : List StockItem) (sid uid : String)
    (entry : StockItem)
    (hnd : (table.map StockItem.id).Nodup)
    (hmem : entry ∈ table) (hid : entry.id = sid)
    (huid : entry.user_id = uid) :
    decrement_stock table sid entry.quantity uid
        = (Except.ok 0, decrementedTable sid entry.quantity table)
      ∧ ∀ q1 : Rat, entry.quantity < q1 →
          decrement_stock table sid q1 uid
            = (Except.error DecrementError.insufficientStock, table) := by
  constructor
  · have h := decrement_stock_ok_char table sid uid entry.quantity hnd hmem hid
      huid le_rfl
    simpa using h
  · intro q1 hq1
    apply decrement_stock_error_char
    intro x hx
    by_cases hxid : x.id = sid
    · have hxe : x = entry := eq_of_mem_of_id_eq hnd hx hmem (hxid.trans hid.symm)
      subst hxe
      rw [rowMatches_eq_false_iff]
      exact fun hc => absurd hc.2.2 (not_le.2 hq1)
    · exact rowMatches_eq_false_of_id_ne sid uid q1 hxid

theorem decrement_stock_boundary_witness :
    decrement_stock [⟨"A", "U1", 5⟩] "A" 5 "U1"
        = (Except.ok 0, decrementedTable "A" 5 [⟨"A", "U1", 5⟩])
      ∧ decrement_stock [⟨"A", "U1", 0⟩] "A" 0.01 "U1"
        = (Except.error DecrementError.insufficientStock, [⟨"A", "U1", 0⟩]) :=
  ⟨(decrement_stock_boundary [⟨"A", "U1", 5⟩] "A" "U1" ⟨"A", "U1", 5⟩
      (by decide) (by decide) rfl rfl).1,
    (decrement_stock_boundary [⟨"A", "U1", 0⟩] "A" "U1" ⟨"A", "U1", 0⟩
      (by decide) (by decide) rfl rfl).2 0.01 (by norm_num)⟩

/-- Claim C9: `decrement_stock` never checks that `_quantity` is positive.
For an existing row of the caller with non-negative quantity, any
`_quantity <= 0` satisfies `quantity >= _quantity`, so the call succeeds and
sets the quantity to `quantity - _quantity`: a negative `_quantity` strictly
increases the stock, and `_quantity = 0` succeeds changing nothing. -/
theorem decrement_stock_no_positivity_check (table : List StockItem)
    (sid uid : String) (q : Rat) (entry : StockItem)
    (hnd : (table.map StockItem.id).Nodup)
    (hmem : entry ∈ table) (hid : entry.id = sid)
    (huid : entry.user_id = uid)
    (hq0 : 0 ≤ entry.quantity) (hq : q ≤ 0) :
    decrement_stock table sid q uid
        = (Except.ok (entry.quantity - q), decrementedTable sid q table)
      ∧ (q < 0 → entry.quantity < entry.quantity - q)
      ∧ (q = 0 → entry.quantity - q = entry.quantity) := by
  refine ⟨decrement_stock_ok_char table sid uid q hnd hmem hid huid
    (hq.trans hq0), fun hneg => ?_, fun h0 => by rw [h0, sub_zero]⟩
  linarith

theorem decrement_stock_no_positivity_check_witness :
    decrement_stock [⟨"A", "U1", 3⟩] "A" (-5) "U1"
      = (Except.ok 8, [⟨"A", "U1", 8⟩]) := by
  have h := (decrement_stock_no_positivity_check [⟨"A", "U1", 3⟩] "A" "U1"
    (-5) ⟨"A", "U1", 3⟩ (by decide) (by decide) rfl rfl (by decide)
    (by norm_num)).1
  norm_num [decrementedTable] at h
  exact h

/-- The per-line-item loop never touches the `invoices` table: whatever the
decrement outcomes, the invoices present after the loop are the invoices
present before it. -/
theorem processItems_invoices (uid invId : String) (db : DB)
    (items : List LineItem) :
    (processItems uid invId db items).1.invoices = db.invoices := by
  induction items generalizing db with
  | nil => rfl
  | cons item rest ih =>
    rcases hd : decrement_stock db.stock_items item.stock_item_id
      item.quantity uid with ⟨r, stock1⟩
    cases r <;> simp [processItems, hd, ih]

/-- Claim C8 is false as stated on the code: `handleSaveInvoice` inserts the
`invoices` row before the per-item loop and the catch block undoes nothing.
Start from one stock row `S1` with quantity 5 and save an invoice with line
items for 3 and then 99 units of `S1`: the second `decrement_stock` call
fails, the save is reported failed (`false`), yet the invoice row, both
`invoice_items` rows, and the first item's decrement (5 → 2) all remain
persisted — a half-complete saved state. -/
theorem handleSaveInvoice_half_complete_cex :
    (handleSaveInvoice "U1" ⟨"I1", "U1"⟩ [⟨"S1", 3⟩, ⟨"S1", 99⟩]
        ⟨[], [], [⟨"S1", "U1", 5⟩]⟩).2 = false
      ∧ (handleSaveInvoice "U1" ⟨"I1", "U1"⟩ [⟨"S1", 3⟩, ⟨"S1", 99⟩]
          ⟨[], [], [⟨"S1", "U1", 5⟩]⟩).1
        = ⟨[⟨"I1", "U1"⟩], [⟨"I1", "S1", 3⟩, ⟨"I1", "S1", 99⟩],
            [⟨"S1", "U1", 2⟩]⟩ := by
  norm_num [handleSaveInvoice, processItems, decrement_stock, updateStock,
    rowMatches]

/-- Claim C8 (amended): a failed decrement makes the whole save report
failure (no success toast, no navigation — the invoice is not *reported*
saved, and no later line item is processed), but it does not prevent the
invoice row from being persisted: even when the save fails, the inserted
invoice is still among the stored invoices. -/
theorem handleSaveInvoice_failure_invoice_persisted (uid : String)
    (inv : Invoice) (items : List LineItem) (db : DB)
    (_h : (handleSaveInvoice uid inv items db).2 = false) :
    inv ∈ (handleSaveInvoice uid inv items db).1.invoices := by
  unfold handleSaveInvoice
  rw [processItems_invoices]
  simp

theorem handleSaveInvoice_failure_invoice_persisted_witness :
    (handleSaveInvoice "U1" ⟨"I1", "U1"⟩ [⟨"S1", 99⟩]
        ⟨[], [], [⟨"S1", "U1", 5⟩]⟩).2 = false
      ∧ (⟨"I1", "U1"⟩ : Invoice) ∈ (handleSaveInvoice "U1" ⟨"I1", "U1"⟩
          [⟨"S1", 99⟩] ⟨[], [], [⟨"S1", "U1", 5⟩]⟩).1.invoices := by
  have h2 : (handleSaveInvoice "U1" (⟨"I1", "U1"⟩ : Invoice) [⟨"S1", 99⟩]
      ⟨[], [], [⟨"S1", "U1", 5⟩]⟩).2 = false := by
    norm_num [handleSaveInvoice, processItems, decrement_stock, updateStock,
      rowMatches]
  exact ⟨h2, handleSaveInvoice_failure_invoice_persisted "U1" ⟨"I1", "U1"⟩
    [⟨"S1", 99⟩] ⟨[], [], [⟨"S1", "U1", 5⟩]⟩ h2⟩

/-- After the unconditional refill UPDATE, the stored quantity of the
targeted id is the written value, whatever was stored before. -/
theorem getQuantity_applyRefillUpdate (table : List StockItem)
    (itemId : String) (newQty : Rat)
    (h : (getQuantity table itemId).isSome) :
    getQuantity (applyRefillUpdate table itemId newQty) itemId
      = some newQty := by
  induction table with
  | nil => simp [getQuantity] at h
  | cons it rest ih =>
    by_cases hit : it.id = itemId
    · simp [getQuantity, applyRefillUpdate, hit]
    · simp only [getQuantity, applyRefillUpdate, List.map_cons] at h ⊢
      rw [List.find?_cons_of_neg _ (by simpa using hit)] at h
      rw [if_neg (by simpa using hit),
        List.find?_cons_of_neg _ (by simpa using hit)]
      exact ih h

/-- Claim C10: `handleRefill` writes an absolute quantity computed from the
client-side snapshot.  For a selected item whose text field parses to a
positive `qty`, the quantity stored after the refill is
`s.item.quantity + qty` where `s.item.quantity` is the snapshot value from
`fetchStockItems` — for every current table state, so a decrement committed
between the fetch and the refill write is overwritten. -/
theorem handleRefill_absolute_write (table : List StockItem)
    (s : SelectedItem) (qty : Rat)
    (hparse : s.refillQuantity = some qty) (hpos : 0 < qty)
    (hrow : (getQuantity table s.item.id).isSome) :
    getQuantity (handleRefill table [s]) s.item.id
      = some (s.item.quantity + qty) := by
  have hvalid : isValidItem s = true := by simp [isValidItem, hparse, hpos]
  simp only [handleRefill, validItems, List.filter, hvalid, List.foldl,
    hparse]
  exact getQuantity_applyRefillUpdate table s.item.id _ hrow

theorem handleRefill_absolute_write_witness :
    getQuantity (handleRefill [⟨"A", "U1", 6⟩]
        [⟨⟨"A", "Apple", 10, "Kg", 2⟩, some 5⟩]) "A" = some 15 := by
  have h := handleRefill_absolute_write [⟨"A", "U1", 6⟩]
    ⟨⟨"A", "Apple", 10, "Kg", 2⟩, some 5⟩ 5 rfl (by decide) (by decide)
  norm_num at h
  exact h
